import Mathlib

/-!
Verification of the xswm window manager (src/main.c).

The embedding translates the manager's global mutable state and its event
handlers into pure Lean functions.  The X server itself is external: queries
the code performs against the server (window geometry, size hints, window
type, WM protocols, the text of the remote-command property) arrive as
parameters of the corresponding handler, and outward X requests that do not
feed back into the manager's own state (XMoveResizeWindow, XRaiseWindow,
XGrabButton, per-window property writes, ...) are noted in comments and
dropped, except where a claim is about them (the synthetic ConfigureNotify
echo of configure_request, and the close request issued by delete), in which
case they are returned explicitly.

State mapped from src/main.c:
  - `head` / the Client linked list : `List Client` (adjacency encodes next);
  - `clients_n`                     : `Int` (a C int counter);
  - `sw`, `sh`                      : screen width/height;
  - `_NET_ACTIVE_WINDOW`            : `active : Option Nat`;
  - the input focus as last set by XSetInputFocus : `focus_w : Option Nat`;
  - `_NET_CLIENT_LIST`              : `clientList : List Nat`;
  - `_NET_CLIENT_LIST_STACKING`     : `clientListStacking : List Nat`;
  - `running`                       : `Bool`.
-/

namespace Xswm

/-- BORDER_WIDTH from src/main.c (`static const int BORDER_WIDTH = 1`). -/
def BORDER_WIDTH : Int := 1

/-- struct Client from src/main.c.  The `next` pointer is represented by
adjacency in the state's `head` list. -/
structure Client where
  w : Nat
  fixed : Bool
  normal : Bool
  width_request : Int
  height_request : Int
  x : Int
  y : Int
  width : Int
  height : Int
deriving DecidableEq

/-- The manager's global mutable state (the statics of src/main.c together
with the published root-window properties the claims talk about). -/
structure WM where
  head : List Client
  clients_n : Int
  sw : Int
  sh : Int
  rootw : Nat
  focus_w : Option Nat
  active : Option Nat
  clientList : List Nat
  clientListStacking : List Nat
  running : Bool
deriving DecidableEq

/-- EWMH atoms a ClientMessage's message_type is compared against in
client_message.  `netWMState` (the fullscreen-state-set message type) and
`otherAtom` are atoms the code never tests for. -/
inductive XAtom where
  | netActiveWindow
  | netCloseWindow
  | netRequestFrameExtents
  | netWMState
  | otherAtom (n : Nat)
deriving DecidableEq

/-- ICCCM atoms as found in a window's WM_PROTOCOLS list. -/
inductive WMAtom where
  | deleteWindow
  | protocols
  | stateAtom
  | otherAtom (n : Nat)
deriving DecidableEq

/-- Outward X requests tracked explicitly: `closeReq w` records that the
handler invoked delete(w) (src/main.c close()/client_message). -/
inductive Effect where
  | closeReq (w : Nat)
deriving DecidableEq

/-- What delete(w) can do on the wire: send the WM_DELETE_WINDOW protocol
client message, or kill the client (XKillClient).  The type has both
constructors so that the force-terminate behaviour claimed by the spec is
expressible; the code path that is actually taken is settled by theorems. -/
inductive CloseAction where
  | sendProtocolMsg (w : Nat)
  | killClient (w : Nat)
deriving DecidableEq

/-- The synthetic ConfigureNotify sent by configure_request for a request
the manager refuses (src/main.c lines 151-164). -/
structure ConfNotify where
  x : Int
  y : Int
  width : Int
  height : Int
  border_width : Int
deriving DecidableEq

/-- One X event, as dispatched by the main loop, together with the answers
the X server gives to the queries the corresponding handler performs:
mapRequest carries is_fixed/is_normal and the XGetGeometry width/height;
propertyHints/propertyType carry the re-queried classification bit;
propertyCmd carries the bytes of the _XSWM_CMD property. -/
inductive XEv where
  | buttonPress (w : Nat)
  | clientMessage (w : Nat) (msg : XAtom)
  | configureNotify (w : Nat) (width height : Int)
  | configureRequest (w : Nat) (maskW maskH : Bool) (ew eh : Int)
  | focusIn (w : Nat)
  | mapRequest (w : Nat) (fixed normal : Bool) (gw gh : Int)
  | propertyCmd (s : List Char)
  | propertyHints (w : Nat) (fixedNew : Bool)
  | propertyType (w : Nat) (normalNew : Bool)
  | unmapNotify (w : Nat)
  | unknownEvent
deriving DecidableEq

/-- is_floating from src/main.c: `c->fixed || !c->normal`. -/
def is_floating (c : Client) : Bool := c.fixed || !c.normal

/-- get_client from src/main.c: walk the list from head, return the first
client whose window equals w. -/
def get_client : List Client → Nat → Option Client
  | [], _ => none
  | c :: cs, w => if c.w = w then some c else get_client cs w

/-- Unlinking a node through its predecessor (`get_parent(c)->next = c->next`
in src/main.c): remove the first client whose window equals w. -/
def unlink : List Client → Nat → List Client
  | [], _ => []
  | c :: cs, w => if c.w = w then cs else c :: unlink cs w

/-- In-place mutation of the node get_client returned (the C code writes
through the `Client *c` pointer): replace the first client whose window
equals w. -/
def replace_client : List Client → Nat → Client → List Client
  | [], _, _ => []
  | c :: cs, w, c1 => if c.w = w then c1 :: cs else c :: replace_client cs w c1

/-- update_geometry from src/main.c: default every axis to the tiled value
(position -BORDER_WIDTH, full screen size), then, for a floating client,
center each axis independently whenever the requested size plus both borders
fits strictly inside the screen.  `Int.tdiv` is C's truncating division
(both operands are nonnegative under the guard, so all conventions agree). -/
def update_geometry (c : Client) (sw sh : Int) : Client :=
  let c := { c with x := -BORDER_WIDTH, y := -BORDER_WIDTH, width := sw, height := sh }
  if is_floating c then
    let true_width := c.width_request + BORDER_WIDTH * 2
    let c :=
      if true_width < sw then
        { c with x := (sw - true_width).tdiv 2, width := c.width_request }
      else c
    let true_height := c.height_request + BORDER_WIDTH * 2
    if true_height < sh then
      { c with y := (sh - true_height).tdiv 2, height := c.height_request }
    else c
  else c

/-- resize from src/main.c: recompute the geometry; the accompanying
XMoveResizeWindow is a server-side command with no model state. -/
def resize (c : Client) (sw sh : Int) : Client := update_geometry c sw sh

/-- focus from src/main.c: XSetInputFocus(w) and publish w as
_NET_ACTIVE_WINDOW. -/
def focus (st : WM) (w : Nat) : WM :=
  { st with focus_w := some w, active := some w }

/-- update_client_list_stacking from src/main.c: regenerate the
_NET_CLIENT_LIST_STACKING property.  The C loop walks the registry from head
to tail writing indices clients_n-1 down to 0, so the written property is
the reverse of the traversal order (bottom-to-top, head last); it writes
clients_n entries, which equals the registry length under the registry
invariant proved below. -/
def update_client_list_stacking (st : WM) : WM :=
  { st with clientListStacking := (st.head.map Client.w).reverse }

/-- update_client_list from src/main.c: read _NET_CLIENT_LIST back, return
unchanged if the read yields nothing, otherwise splice out the first
occurrence of w (memmove) and rewrite the property. -/
def update_client_list (st : WM) (w : Nat) : WM :=
  if st.clientList = [] then st
  else { st with clientList := st.clientList.erase w }

/-- pop from src/main.c: no-op if w is unmanaged or already the head;
otherwise unlink it via its predecessor, relink it as the new head, focus
it (XRaiseWindow is server-side) and regenerate the stacking property. -/
def pop (st : WM) (w : Nat) : WM :=
  match get_client st.head w with
  | none => st
  | some c =>
    match st.head with
    | [] => st
    | h :: _ =>
      if h.w = w then st
      else
        update_client_list_stacking
          (focus { st with head := c :: unlink st.head w } w)

/-- map_request from src/main.c: no-op if the window is already managed;
otherwise build the new client from the server's answers (is_fixed,
is_normal, XGetGeometry width/height, which default to the screen size),
compute its geometry, link it in as the new head, bump the counter, append
w to both client-list properties, and focus it.  The per-window property
writes, button grab, XConfigureWindow and XMapWindow are server-side. -/
def map_request (st : WM) (w : Nat) (fixed normal : Bool) (gw gh : Int) : WM :=
  match get_client st.head w with
  | some _ => st
  | none =>
    let c := update_geometry
      { w := w, fixed := fixed, normal := normal,
        width_request := gw, height_request := gh,
        x := 0, y := 0, width := 0, height := 0 } st.sw st.sh
    focus
      { st with
          head := c :: st.head,
          clients_n := st.clients_n + 1,
          clientList := st.clientList ++ [w],
          clientListStacking := st.clientListStacking ++ [w] } w

/-- unmap_notify from src/main.c: no-op if unmanaged.  Otherwise (after the
server-grabbed per-window teardown, which touches no model state): if the
client is not the head, unlink it via its predecessor; else if the counter
is 1, clear _NET_ACTIVE_WINDOW and empty the registry; else promote the
successor to head and focus it.  Then decrement the counter, splice w out
of _NET_CLIENT_LIST and regenerate _NET_CLIENT_LIST_STACKING.  The two
inner fallback branches (empty list with a successful lookup, or a head
with no successor while clients_n is not 1) correspond to C dereferencing
freed or null pointers; they are unreachable under the registry invariant
proved below. -/
def unmap_notify (st : WM) (w : Nat) : WM :=
  match get_client st.head w with
  | none => st
  | some _ =>
    let st1 :=
      match st.head with
      | [] => st
      | h :: t =>
        if h.w ≠ w then { st with head := h :: unlink t w }
        else if st.clients_n = 1 then { st with head := [], active := none }
        else
          match t with
          | [] => { st with head := [] }
          | c2 :: _ => focus { st with head := t } c2.w
    let st2 := { st1 with clients_n := st1.clients_n - 1 }
    update_client_list_stacking (update_client_list st2 w)

/-- button_press from src/main.c: raise and focus the pressed window, then
replay the pointer event (server-side). -/
def button_press (st : WM) (w : Nat) : WM := pop st w

/-- client_message from src/main.c: ignored unless the target is managed;
_NET_ACTIVE_WINDOW raises the window, _NET_CLOSE_WINDOW invokes delete(w)
(recorded as an Effect), _NET_REQUEST_FRAME_EXTENTS republishes the
per-window frame-extents property (server-side only); every other
message_type - including _NET_WM_STATE, the fullscreen request - matches no
branch and does nothing. -/
def client_message (st : WM) (w : Nat) (msg : XAtom) : WM × List Effect :=
  match get_client st.head w with
  | none => (st, [])
  | some _ =>
    if msg = XAtom.netActiveWindow then (pop st w, [])
    else if msg = XAtom.netCloseWindow then (st, [Effect.closeReq w])
    else if msg = XAtom.netRequestFrameExtents then (st, [])
    else (st, [])

/-- configure_notify from src/main.c: only a root-window resize with a
genuinely new size acts; it caches the new screen size (republishing
_NET_DESKTOP_GEOMETRY and _NET_WORKAREA, server-side) and resizes every
managed client. -/
def configure_notify (st : WM) (w : Nat) (width height : Int) : WM :=
  if w ≠ st.rootw then st
  else if st.sw = width ∧ st.sh = height then st
  else
    { st with
        sw := width, sh := height,
        head := st.head.map (fun c => resize c width height) }

/-- configure_request from src/main.c: for a managed window, record any
requested width/height; if something was requested and the client is
floating, honour it by resizing; otherwise refuse, replying with a
synthetic ConfigureNotify that echoes the current authoritative geometry.
For an unmanaged window the request is passed through verbatim
(XConfigureWindow, server-side). -/
def configure_request (st : WM) (w : Nat) (maskW maskH : Bool) (ew eh : Int) :
    WM × Option ConfNotify :=
  match get_client st.head w with
  | none => (st, none)
  | some c =>
    let c1 := { c with
        width_request := if maskW then ew else c.width_request,
        height_request := if maskH then eh else c.height_request }
    if (maskW || maskH) && is_floating c1 then
      ({ st with head := replace_client st.head w (resize c1 st.sw st.sh) }, none)
    else
      ({ st with head := replace_client st.head w c1 },
       some { x := c1.x, y := c1.y, width := c1.width, height := c1.height
              , border_width := BORDER_WIDTH })

/-- focus_in from src/main.c: if anything other than the head reports focus,
forcibly refocus the head. -/
def focus_in (st : WM) (w : Nat) : WM :=
  match st.head with
  | [] => st
  | h :: _ => if h.w ≠ w then focus st h.w else st

/-- close from src/main.c: `if (clients_n > 0) delete(head->w);`.  The inner
empty-list branch is C dereferencing a null head; unreachable under the
registry invariant. -/
def close_cmd (st : WM) : WM × List Effect :=
  if st.clients_n > 0 then
    match st.head with
    | [] => (st, [])
    | c :: _ => (st, [Effect.closeReq c.w])
  else (st, [])

/-- last from src/main.c: `if (clients_n > 1) pop(head->next->w);`.  The
wildcard branch is C dereferencing a null head or next pointer; unreachable
under the registry invariant. -/
def last_cmd (st : WM) : WM :=
  if st.clients_n > 1 then
    match st.head with
    | _ :: c2 :: _ => pop st c2.w
    | _ => st
  else st

/-- quit from src/main.c: stop the dispatcher loop. -/
def quit_cmd (st : WM) : WM := { st with running := false }

/-- The command decode of property_notify (src/main.c lines 235-238):
`strncpy(cmd, p.value, 7); cmd[7] = 0;` reads the property bytes as a C
string, so the command compared against the tokens is the value up to its
first NUL byte, truncated to at most 7 bytes. -/
def read_cmd (s : List Char) : List Char :=
  (s.takeWhile (fun ch => ch != Char.ofNat 0)).take 7

/-- The remote-control arm of property_notify (src/main.c): decode the
_XSWM_CMD property and run last/close/quit on an exact match of the decoded
command; anything else falls through silently. -/
def property_cmd (st : WM) (s : List Char) : WM × List Effect :=
  let cmd := read_cmd s
  if cmd = "last".data then (last_cmd st, [])
  else if cmd = "close".data then close_cmd st
  else if cmd = "quit".data then (quit_cmd st, [])
  else (st, [])

/-- The XA_WM_NORMAL_HINTS arm of property_notify (src/main.c): refresh the
fixed bit from the server and resize only if the floating classification
changed. -/
def property_hints (st : WM) (w : Nat) (fixedNew : Bool) : WM :=
  match get_client st.head w with
  | none => st
  | some c =>
    let c1 := { c with fixed := fixedNew }
    let c2 := if is_floating c != is_floating c1 then resize c1 st.sw st.sh else c1
    { st with head := replace_client st.head w c2 }

/-- The _NET_WM_WINDOW_TYPE arm of property_notify (src/main.c): refresh the
normal bit from the server and resize only if the floating classification
changed. -/
def property_type (st : WM) (w : Nat) (normalNew : Bool) : WM :=
  match get_client st.head w with
  | none => st
  | some c =>
    let c1 := { c with normal := normalNew }
    let c2 := if is_floating c != is_floating c1 then resize c1 st.sw st.sh else c1
    { st with head := replace_client st.head w c2 }

/-- The WM_PROTOCOLS membership scan of delete (src/main.c lines 312-314):
the C while loop walks the protocols array looking for WM_DELETE_WINDOW. -/
def protocol_exists : List WMAtom → Bool
  | [] => false
  | p :: ps => p == WMAtom.deleteWindow || protocol_exists ps

/-- delete from src/main.c: `protocolsResult` is what XGetWMProtocols
returned (none on failure).  If the query fails, return without acting; if
WM_DELETE_WINDOW is advertised, send the graceful-close protocol message;
otherwise return without acting.  No branch of the C function calls
XKillClient. -/
def delete (w : Nat) (protocolsResult : Option (List WMAtom)) : Option CloseAction :=
  match protocolsResult with
  | none => none
  | some ps =>
    if protocol_exists ps then some (CloseAction.sendProtocolMsg w) else none

/-- The main-loop dispatch switch of src/main.c: exactly one handler per
event, unrecognized events ignored. -/
def handle (st : WM) (e : XEv) : WM :=
  match e with
  | XEv.buttonPress w => button_press st w
  | XEv.clientMessage w msg => (client_message st w msg).1
  | XEv.configureNotify w width height => configure_notify st w width height
  | XEv.configureRequest w mw mh ew eh => (configure_request st w mw mh ew eh).1
  | XEv.focusIn w => focus_in st w
  | XEv.mapRequest w f n gw gh => map_request st w f n gw gh
  | XEv.propertyCmd s => (property_cmd st s).1
  | XEv.propertyHints w f => property_hints st w f
  | XEv.propertyType w n => property_type st w n
  | XEv.unmapNotify w => unmap_notify st w
  | XEv.unknownEvent => st

/-- The state after the startup sequence of main (src/main.c): empty
registry, zero counter, the screen size read from the display, and all
three list/active properties initialized empty. -/
def init_state (root : Nat) (sw sh : Int) : WM :=
  { head := [], clients_n := 0, sw := sw, sh := sh, rootw := root
    , focus_w := none, active := none, clientList := [], clientListStacking := []
    , running := true }

/-- The registry invariant of claim C1: the window handles in the list are
pairwise distinct, and the clients_n counter equals the number of tracked
(mapped, managed) windows, i.e. the length of the list. -/
def Inv (st : WM) : Prop :=
  (st.head.map Client.w).Nodup ∧ st.clients_n = (st.head.length : Int)

section ProjectionLemmas

@[simp] lemma focus_head (st : WM) (w : Nat) : (focus st w).head = st.head := rfl

@[simp] lemma focus_clients_n (st : WM) (w : Nat) :
    (focus st w).clients_n = st.clients_n := rfl

@[simp] lemma focus_focus_w (st : WM) (w : Nat) : (focus st w).focus_w = some w := rfl

@[simp] lemma focus_active (st : WM) (w : Nat) : (focus st w).active = some w := rfl

@[simp] lemma ucls_head (st : WM) : (update_client_list_stacking st).head = st.head := rfl

@[simp] lemma ucls_clients_n (st : WM) :
    (update_client_list_stacking st).clients_n = st.clients_n := rfl

@[simp] lemma ucls_focus_w (st : WM) :
    (update_client_list_stacking st).focus_w = st.focus_w := rfl

@[simp] lemma ucls_active (st : WM) :
    (update_client_list_stacking st).active = st.active := rfl

@[simp] lemma ucls_stacking (st : WM) :
    (update_client_list_stacking st).clientListStacking
      = (st.head.map Client.w).reverse := rfl

@[simp] lemma ucl_head (st : WM) (w : Nat) : (update_client_list st w).head = st.head := by
  unfold update_client_list; split <;> rfl

@[simp] lemma ucl_clients_n (st : WM) (w : Nat) :
    (update_client_list st w).clients_n = st.clients_n := by
  unfold update_client_list; split <;> rfl

@[simp] lemma ucl_focus_w (st : WM) (w : Nat) :
    (update_client_list st w).focus_w = st.focus_w := by
  unfold update_client_list; split <;> rfl

@[simp] lemma ucl_active (st : WM) (w : Nat) :
    (update_client_list st w).active = st.active := by
  unfold update_client_list; split <;> rfl

end ProjectionLemmas

section ListLemmas

lemma get_client_eq_w {l : List Client} {w : Nat} {c : Client}
    (h : get_client l w = some c) : c.w = w := by
  induction l with
  | nil => simp [get_client] at h
  | cons a as ih =>
    rw [get_client] at h
    split at h
    · cases h; assumption
    · exact ih h

lemma get_client_mem {l : List Client} {w : Nat} {c : Client}
    (h : get_client l w = some c) : c ∈ l := by
  induction l with
  | nil => simp [get_client] at h
  | cons a as ih =>
    rw [get_client] at h
    split at h
    · cases h; exact List.mem_cons.mpr (Or.inl rfl)
    · exact List.mem_cons.mpr (Or.inr (ih h))

lemma get_client_none_not_mem {l : List Client} {w : Nat}
    (h : get_client l w = none) : w ∉ l.map Client.w := by
  induction l with
  | nil => simp
  | cons a as ih =>
    rw [get_client] at h
    split at h
    · cases h
    · rename_i haw
      simp only [List.map_cons, List.mem_cons]
      rintro (rfl | hmem)
      · exact haw rfl
      · exact ih h hmem

lemma get_client_isSome_of_mem {l : List Client} {w : Nat}
    (h : w ∈ l.map Client.w) : ∃ c, get_client l w = some c := by
  induction l with
  | nil => simp at h
  | cons a as ih =>
    by_cases haw : a.w = w
    · exact ⟨a, by simp [get_client, haw]⟩
    · have : w ∈ as.map Client.w := by
        rcases List.mem_cons.mp h with h1 | h1
        · exact absurd h1.symm haw
        · exact h1
      rcases ih this with ⟨c, hc⟩
      exact ⟨c, by simp [get_client, haw, hc]⟩

lemma unlink_map_w (l : List Client) (w : Nat) :
    (unlink l w).map Client.w = (l.map Client.w).erase w := by
  induction l with
  | nil => rfl
  | cons a as ih =>
    by_cases haw : a.w = w
    · simp [unlink, haw, List.erase_cons_head]
    · simp only [unlink, if_neg haw, List.map_cons]
      rw [List.erase_cons_tail, ih]
      simp [haw]

lemma unlink_length_of_mem {l : List Client} {w : Nat}
    (h : w ∈ l.map Client.w) : (unlink l w).length + 1 = l.length := by
  induction l with
  | nil => simp at h
  | cons a as ih =>
    by_cases haw : a.w = w
    · simp [unlink, haw]
    · have hmem : w ∈ as.map Client.w := by
        rcases List.mem_cons.mp h with h1 | h1
        · exact absurd h1.symm haw
        · exact h1
      simp only [unlink, if_neg haw, List.length_cons]
      rw [← ih hmem]

lemma replace_client_map_w {l : List Client} {w : Nat} {c1 : Client}
    (h : c1.w = w) : (replace_client l w c1).map Client.w = l.map Client.w := by
  induction l with
  | nil => rfl
  | cons a as ih =>
    by_cases haw : a.w = w
    · simp [replace_client, haw, h]
    · simp [replace_client, haw, ih]

lemma replace_client_length (l : List Client) (w : Nat) (c1 : Client) :
    (replace_client l w c1).length = l.length := by
  induction l with
  | nil => rfl
  | cons a as ih =>
    by_cases haw : a.w = w <;> simp [replace_client, haw, ih]

lemma get_client_replace {l : List Client} {w : Nat} {c c1 : Client}
    (hc : get_client l w = some c) (h1 : c1.w = w) :
    get_client (replace_client l w c1) w = some c1 := by
  induction l with
  | nil => simp [get_client] at hc
  | cons a as ih =>
    by_cases haw : a.w = w
    · simp [replace_client, haw, get_client, h1]
    · rw [get_client, if_neg haw] at hc
      simp [replace_client, haw, get_client, ih hc]

end ListLemmas

section GeometryLemmas

lemma update_geometry_w (c : Client) (sw sh : Int) :
    (update_geometry c sw sh).w = c.w := by
  unfold update_geometry
  dsimp only
  split <;> [skip; rfl]
  split <;> split <;> rfl

lemma update_geometry_fixed (c : Client) (sw sh : Int) :
    (update_geometry c sw sh).fixed = c.fixed := by
  unfold update_geometry
  dsimp only
  split <;> [skip; rfl]
  split <;> split <;> rfl

lemma update_geometry_normal (c : Client) (sw sh : Int) :
    (update_geometry c sw sh).normal = c.normal := by
  unfold update_geometry
  dsimp only
  split <;> [skip; rfl]
  split <;> split <;> rfl

lemma resize_w (c : Client) (sw sh : Int) : (resize c sw sh).w = c.w :=
  update_geometry_w c sw sh

end GeometryLemmas

section InvPreservation

lemma Inv_focus {st : WM} (w : Nat) (h : Inv st) : Inv (focus st w) := h

lemma Inv_stacking {st : WM} (h : Inv st) : Inv (update_client_list_stacking st) := h

lemma Inv_update_client_list {st : WM} (w : Nat) (h : Inv st) :
    Inv (update_client_list st w) := by
  unfold update_client_list; split
  · exact h
  · exact h

lemma Inv_replace {st : WM} {w : Nat} {c1 : Client} (h : Inv st) (hw : c1.w = w) :
    Inv { st with head := replace_client st.head w c1 } := by
  refine ⟨?_, ?_⟩
  · show ((replace_client st.head w c1).map Client.w).Nodup
    rw [replace_client_map_w hw]; exact h.1
  · show st.clients_n = ((replace_client st.head w c1).length : Int)
    rw [replace_client_length]; exact h.2

lemma Inv_pop (st : WM) (w : Nat) (h : Inv st) : Inv (pop st w) := by
  unfold pop
  split
  · exact h
  rename_i c hg
  split
  · exact h
  rename_i a t hl
  split
  · exact h
  rename_i haw
  refine ⟨?_, ?_⟩
  · show ((c :: unlink st.head w).map Client.w).Nodup
    rw [List.map_cons, unlink_map_w, get_client_eq_w hg]
    refine List.nodup_cons.mpr ⟨?_, h.1.erase w⟩
    intro hmem
    exact absurd rfl ((h.1.mem_erase_iff.mp hmem).1)
  · show st.clients_n = ((c :: unlink st.head w).length : Int)
    have hmem : w ∈ st.head.map Client.w := by
      have := List.mem_map_of_mem Client.w (get_client_mem hg)
      rwa [get_client_eq_w hg] at this
    have hlen := unlink_length_of_mem hmem
    have h2 := h.2
    simp only [List.length_cons]
    omega

lemma Inv_map_request (st : WM) (w : Nat) (f n : Bool) (gw gh : Int) (h : Inv st) :
    Inv (map_request st w f n gw gh) := by
  unfold map_request
  split
  · exact h
  rename_i hg
  refine ⟨?_, ?_⟩
  · show ((update_geometry
        { w := w, fixed := f, normal := n, width_request := gw, height_request := gh,
          x := 0, y := 0, width := 0, height := 0 } st.sw st.sh :: st.head).map
        Client.w).Nodup
    rw [List.map_cons, update_geometry_w]
    exact List.nodup_cons.mpr ⟨get_client_none_not_mem hg, h.1⟩
  · show st.clients_n + 1 = ((update_geometry
        { w := w, fixed := f, normal := n, width_request := gw, height_request := gh,
          x := 0, y := 0, width := 0, height := 0 } st.sw st.sh :: st.head).length : Int)
    have h2 := h.2
    simp only [List.length_cons]
    omega

lemma Inv_unmap (st : WM) (w : Nat) (h : Inv st) : Inv (unmap_notify st w) := by
  unfold unmap_notify
  cases hg : get_client st.head w with
  | none => exact h
  | some c =>
  dsimp only
  apply Inv_stacking
  apply Inv_update_client_list
  cases hl : st.head with
  | nil =>
    rw [hl] at hg
    exact absurd hg (by simp [get_client])
  | cons a t =>
  dsimp only
  by_cases haw : a.w = w
  · -- w is the head of the registry
    rw [if_neg (not_not_intro haw)]
    by_cases hn1 : st.clients_n = 1
    · rw [if_pos hn1]
      exact ⟨List.nodup_nil, by simp [hn1]⟩
    · rw [if_neg hn1]
      cases t with
      | nil =>
        have h2 := h.2
        rw [hl] at h2
        simp at h2
        exact absurd h2 hn1
      | cons c2 t2 =>
        dsimp only
        have h1 : ((a :: c2 :: t2).map Client.w).Nodup := by rw [← hl]; exact h.1
        have h2 := h.2
        rw [hl] at h2
        refine ⟨?_, ?_⟩
        · show ((c2 :: t2).map Client.w).Nodup
          rw [List.map_cons] at h1
          exact (List.nodup_cons.mp h1).2
        · show st.clients_n - 1 = ((c2 :: t2).length : Int)
          simp only [List.length_cons] at h2 ⊢
          omega
  · -- w sits strictly below the head: unlink through the predecessor
    rw [if_pos haw]
    have hgt : get_client t w = some c := by
      rw [hl, get_client, if_neg haw] at hg
      exact hg
    have h1 : ((a :: t).map Client.w).Nodup := by rw [← hl]; exact h.1
    rw [List.map_cons] at h1
    rcases List.nodup_cons.mp h1 with ⟨hna, hnt⟩
    refine ⟨?_, ?_⟩
    · show ((a :: unlink t w).map Client.w).Nodup
      rw [List.map_cons, unlink_map_w]
      refine List.nodup_cons.mpr ⟨?_, hnt.erase w⟩
      intro hmem
      exact hna (List.mem_of_mem_erase hmem)
    · show st.clients_n - 1 = ((a :: unlink t w).length : Int)
      have hmem : w ∈ t.map Client.w := by
        have := List.mem_map_of_mem Client.w (get_client_mem hgt)
        rwa [get_client_eq_w hgt] at this
      have hlen := unlink_length_of_mem hmem
      have h2 := h.2
      rw [hl] at h2
      simp only [List.length_cons] at h2 ⊢
      omega

lemma Inv_client_message (st : WM) (w : Nat) (msg : XAtom) (h : Inv st) :
    Inv (client_message st w msg).1 := by
  unfold client_message
  split
  · exact h
  split
  · exact Inv_pop st w h
  split
  · exact h
  split
  · exact h
  · exact h

lemma Inv_configure_notify (st : WM) (w : Nat) (width height : Int) (h : Inv st) :
    Inv (configure_notify st w width height) := by
  unfold configure_notify
  split
  · exact h
  split
  · exact h
  refine ⟨?_, ?_⟩
  · show ((st.head.map (fun c => resize c width height)).map Client.w).Nodup
    rw [List.map_map]
    have hf : (Client.w ∘ fun c => resize c width height) = Client.w :=
      funext fun c => resize_w c width height
    rw [hf]; exact h.1
  · show st.clients_n = ((st.head.map (fun c => resize c width height)).length : Int)
    rw [List.length_map]; exact h.2

lemma Inv_configure_request (st : WM) (w : Nat) (mw mh : Bool) (ew eh : Int)
    (h : Inv st) : Inv (configure_request st w mw mh ew eh).1 := by
  unfold configure_request
  cases hg : get_client st.head w with
  | none => exact h
  | some c =>
  have hcw := get_client_eq_w hg
  dsimp only
  repeat' split
  all_goals
    first
      | exact Inv_replace h (by rw [resize_w]; exact hcw)
      | exact Inv_replace h hcw

lemma Inv_focus_in (st : WM) (w : Nat) (h : Inv st) : Inv (focus_in st w) := by
  unfold focus_in
  split
  · exact h
  split
  · exact Inv_focus _ h
  · exact h

lemma Inv_last_cmd (st : WM) (h : Inv st) : Inv (last_cmd st) := by
  unfold last_cmd
  repeat' split
  all_goals first | exact Inv_pop st _ h | exact h

lemma close_cmd_fst (st : WM) : (close_cmd st).1 = st := by
  unfold close_cmd
  repeat' split
  all_goals rfl

lemma Inv_property_cmd (st : WM) (s : List Char) (h : Inv st) :
    Inv (property_cmd st s).1 := by
  unfold property_cmd
  dsimp only
  split
  · exact Inv_last_cmd st h
  split
  · rw [close_cmd_fst]; exact h
  split
  · exact h
  · exact h

lemma Inv_property_hints (st : WM) (w : Nat) (b : Bool) (h : Inv st) :
    Inv (property_hints st w b) := by
  unfold property_hints
  cases hg : get_client st.head w with
  | none => exact h
  | some c =>
  have hcw := get_client_eq_w hg
  dsimp only
  repeat' split
  all_goals
    first
      | exact Inv_replace h (by rw [resize_w]; exact hcw)
      | exact Inv_replace h hcw

lemma Inv_property_type (st : WM) (w : Nat) (b : Bool) (h : Inv st) :
    Inv (property_type st w b) := by
  unfold property_type
  cases hg : get_client st.head w with
  | none => exact h
  | some c =>
  have hcw := get_client_eq_w hg
  dsimp only
  repeat' split
  all_goals
    first
      | exact Inv_replace h (by rw [resize_w]; exact hcw)
      | exact Inv_replace h hcw

lemma Inv_handle (st : WM) (e : XEv) (h : Inv st) : Inv (handle st e) := by
  cases e with
  | buttonPress w => exact Inv_pop st w h
  | clientMessage w msg => exact Inv_client_message st w msg h
  | configureNotify w width height => exact Inv_configure_notify st w width height h
  | configureRequest w mw mh ew eh => exact Inv_configure_request st w mw mh ew eh h
  | focusIn w => exact Inv_focus_in st w h
  | mapRequest w f n gw gh => exact Inv_map_request st w f n gw gh h
  | propertyCmd s => exact Inv_property_cmd st s h
  | propertyHints w f => exact Inv_property_hints st w f h
  | propertyType w n => exact Inv_property_type st w n h
  | unmapNotify w => exact Inv_unmap st w h
  | unknownEvent => exact h

lemma Inv_init (root : Nat) (sw sh : Int) : Inv (init_state root sw sh) :=
  ⟨List.nodup_nil, rfl⟩

lemma Inv_run (st : WM) (evs : List XEv) (h : Inv st) :
    Inv (List.foldl handle st evs) := by
  induction evs generalizing st with
  | nil => exact h
  | cons e es ih => exact ih (handle st e) (Inv_handle st e h)

end InvPreservation

section DecodeLemmas

lemma take_eq_of_short {α : Type} {s t : List α} {n : Nat}
    (h : s.take n = t) (hlen : t.length < n) : s = t := by
  have hl := congrArg List.length h
  rw [List.length_take] at hl
  by_cases hc : n ≤ s.length
  · rw [Nat.min_eq_left hc] at hl
    omega
  · push_neg at hc
    rw [← h]
    exact (List.take_of_length_le (by omega)).symm

lemma takeWhile_no_nul {s : List Char} (h : Char.ofNat 0 ∉ s) :
    s.takeWhile (fun ch => ch != Char.ofNat 0) = s := by
  induction s with
  | nil => rfl
  | cons a as ih =>
    simp only [List.mem_cons, not_or] at h
    rw [List.takeWhile_cons, if_pos (by simp [bne_iff_ne]; exact Ne.symm h.1)]
    rw [ih h.2]

lemma read_cmd_no_nul {s : List Char} (h : Char.ofNat 0 ∉ s) :
    read_cmd s = s.take 7 := by
  rw [read_cmd, takeWhile_no_nul h]

lemma protocol_exists_iff (ps : List WMAtom) :
    protocol_exists ps = true ↔ WMAtom.deleteWindow ∈ ps := by
  induction ps with
  | nil => simp [protocol_exists]
  | cons p ps ih =>
    rw [protocol_exists, Bool.or_eq_true, beq_iff_eq, ih, List.mem_cons]
    constructor
    · rintro (rfl | hm)
      · exact Or.inl rfl
      · exact Or.inr hm
    · rintro (hm | hm)
      · exact Or.inl hm.symm
      · exact Or.inr hm

@[simp] lemma is_floating_requests (c : Client) (a b : Int) :
    is_floating { c with width_request := a, height_request := b } = is_floating c := rfl

@[simp] lemma is_floating_geom (c : Client) (a b u v : Int) :
    is_floating { c with x := a, y := b, width := u, height := v } = is_floating c := rfl

end DecodeLemmas

/-! ### Claim C1 -/

/-- C1: for every sequence of dispatched events starting from the manager's
initial state, the registry holds no duplicate window handles and the
clients_n counter equals the number of currently tracked (mapped, managed)
windows, i.e. the registry's size; moreover every handler - the main-loop
dispatch as a whole, and pop in particular - preserves the invariant from
any state that satisfies it. -/
theorem registry_invariant :
    (∀ (st : WM) (e : XEv), Inv st → Inv (handle st e))
    ∧ (∀ (st : WM) (w : Nat), Inv st → Inv (pop st w))
    ∧ (∀ (root : Nat) (sw sh : Int) (evs : List XEv),
        Inv (List.foldl handle (init_state root sw sh) evs)) :=
  ⟨fun st e h => Inv_handle st e h,
   fun st w h => Inv_pop st w h,
   fun root sw sh evs => Inv_run _ evs (Inv_init root sw sh)⟩

/-- C1 witness: the invariant holds at the initial state and is preserved
across a concrete dispatched map request. -/
theorem registry_invariant_witness :
    Inv (init_state 0 1920 1080)
    ∧ Inv (handle (init_state 0 1920 1080) (XEv.mapRequest 7 false true 400 300)) :=
  ⟨Inv_init 0 1920 1080,
   registry_invariant.1 (init_state 0 1920 1080) (XEv.mapRequest 7 false true 400 300)
     (Inv_init 0 1920 1080)⟩

/-! ### Claim C2 -/

/-- A concrete two-client registry: traversal order [2, 1]. -/
def stC2 : WM :=
  { head :=
      [{ w := 2, fixed := false, normal := true, width_request := 7, height_request := 7,
         x := -1, y := -1, width := 800, height := 600 },
       { w := 1, fixed := false, normal := true, width_request := 7, height_request := 7,
         x := -1, y := -1, width := 800, height := 600 }]
    , clients_n := 2, sw := 800, sh := 600, rootw := 0, focus_w := some 2
    , active := some 2, clientList := [1, 2], clientListStacking := [1, 2]
    , running := true }

/-- C2 counterexample: regenerating the stacking property from a registry
whose head-to-tail traversal is [2, 1] writes [1, 2]: the written order is
the reverse of the traversal order, not the traversal order the claim
asserts (the C loop fills indices clients_n-1 down to 0 while walking
head to tail). -/
theorem client_list_stacking_cex :
    stC2.head.map Client.w = [2, 1]
    ∧ (update_client_list_stacking stC2).clientListStacking = [1, 2]
    ∧ (update_client_list_stacking stC2).clientListStacking ≠ stC2.head.map Client.w :=
  ⟨by decide, by decide, by decide⟩

/-- C2 (amended): regenerating the stacking property writes exactly the
reverse of the head-to-tail registry traversal (bottom-to-top, head last),
and - with the clients_n counter consistent with the registry, as the
invariant guarantees - its length equals the registry size clients_n. -/
theorem client_list_stacking_spec (st : WM)
    (hn : st.clients_n = (st.head.length : Int)) :
    (update_client_list_stacking st).clientListStacking = (st.head.map Client.w).reverse
    ∧ ((update_client_list_stacking st).clientListStacking.length : Int) = st.clients_n := by
  refine ⟨rfl, ?_⟩
  rw [ucls_stacking, List.length_reverse, List.length_map, hn]

/-- C2 witness: the amended statement evaluated on the concrete two-client
registry. -/
theorem client_list_stacking_spec_witness :
    stC2.clients_n = (stC2.head.length : Int)
    ∧ (update_client_list_stacking stC2).clientListStacking = [1, 2]
    ∧ ((update_client_list_stacking stC2).clientListStacking.length : Int)
        = stC2.clients_n := by
  refine ⟨by decide, ?_, (client_list_stacking_spec stC2 (by decide)).2⟩
  rw [(client_list_stacking_spec stC2 (by decide)).1]
  decide

/-! ### Claim C5 -/

/-- C5 counterexample: a window that does not advertise any protocol (the
protocols query succeeds with an empty list) is not force-terminated:
delete performs no action at all, rather than the forced termination the
claim asserts, so no forward progress is made against an uncooperative
client. -/
theorem delete_cex :
    delete 9 (some []) = none
    ∧ delete 9 (some []) ≠ some (CloseAction.killClient 9) :=
  ⟨rfl, by decide⟩

/-- C5 (amended): delete sends the graceful-close protocol message exactly
when the window advertises WM_DELETE_WINDOW; otherwise - the protocol not
advertised, or the protocols query failing - it does nothing at all, and in
no case does it force-terminate the window. -/
theorem delete_spec (w : Nat) :
    (∀ ps, WMAtom.deleteWindow ∈ ps →
      delete w (some ps) = some (CloseAction.sendProtocolMsg w))
    ∧ (∀ ps, WMAtom.deleteWindow ∉ ps → delete w (some ps) = none)
    ∧ delete w none = none
    ∧ (∀ pr, delete w pr ≠ some (CloseAction.killClient w)) := by
  refine ⟨?_, ?_, rfl, ?_⟩
  · intro ps hm
    unfold delete
    dsimp only
    rw [if_pos ((protocol_exists_iff ps).mpr hm)]
  · intro ps hm
    unfold delete
    dsimp only
    rw [if_neg (fun hx => hm ((protocol_exists_iff ps).mp hx))]
  · intro pr
    cases pr with
    | none => simp [delete]
    | some ps =>
      unfold delete
      split <;> simp

/-- C5 witness: the amended statement evaluated on a window advertising the
protocol and on one that does not. -/
theorem delete_spec_witness :
    WMAtom.deleteWindow ∈ [WMAtom.protocols, WMAtom.deleteWindow]
    ∧ delete 4 (some [WMAtom.protocols, WMAtom.deleteWindow])
        = some (CloseAction.sendProtocolMsg 4)
    ∧ WMAtom.deleteWindow ∉ [WMAtom.protocols]
    ∧ delete 4 (some [WMAtom.protocols]) = none :=
  ⟨by decide, (delete_spec 4).1 _ (by decide), by decide, (delete_spec 4).2.1 _ (by decide)⟩

/-! ### Claim C6 -/

/-- A managed floating client centered at 400x300 on a 1920x1080 screen. -/
def stC6 : WM :=
  { head :=
      [{ w := 1, fixed := true, normal := true, width_request := 400, height_request := 300,
         x := 759, y := 389, width := 400, height := 300 }]
    , clients_n := 1, sw := 1920, sh := 1080, rootw := 0, focus_w := some 1
    , active := some 1, clientList := [1], clientListStacking := [1], running := true }

/-- C6 counterexample: a fullscreen-state-set client message (message type
_NET_WM_STATE) delivered to a managed, currently floating window leaves its
geometry exactly as it was - the centered 400x300 rectangle - instead of
forcing the tiled geometry (-1, -1, 1920, 1080) the claim asserts:
client_message has no branch for that message type. -/
theorem client_message_fullscreen_cex :
    (stC6.head.map is_floating = [true])
    ∧ (client_message stC6 1 XAtom.netWMState).1 = stC6
    ∧ ((client_message stC6 1 XAtom.netWMState).1.head.map
        (fun c => (c.x, c.y, c.width, c.height)) = [(759, 389, 400, 300)])
    ∧ ((client_message stC6 1 XAtom.netWMState).1.head.map
        (fun c => (c.x, c.y, c.width, c.height)) ≠ [(-1, -1, 1920, 1080)]) :=
  ⟨by decide, by decide, by decide, by decide⟩

/-- C6 (amended): client_message acts only on the activate and
close-request message types (frame-extents-request merely republishes a
per-window constant); every other message type - in particular
_NET_WM_STATE, the fullscreen-state-set request - is a complete no-op with
no effects, leaving the whole state, and hence every window's geometry,
unchanged. -/
theorem client_message_unhandled (st : WM) (w : Nat) (msg : XAtom)
    (h1 : msg ≠ XAtom.netActiveWindow) (h2 : msg ≠ XAtom.netCloseWindow) :
    client_message st w msg = (st, []) := by
  unfold client_message
  cases hg : get_client st.head w with
  | none => rfl
  | some c =>
    dsimp only
    rw [if_neg h1, if_neg h2]
    split <;> rfl

/-- C6 witness: the amended statement evaluated on a fullscreen-state-set
message aimed at a freshly started manager. -/
theorem client_message_unhandled_witness :
    XAtom.netWMState ≠ XAtom.netActiveWindow
    ∧ XAtom.netWMState ≠ XAtom.netCloseWindow
    ∧ client_message (init_state 0 640 480) 3 XAtom.netWMState
        = (init_state 0 640 480, []) :=
  ⟨by decide, by decide,
   client_message_unhandled (init_state 0 640 480) 3 XAtom.netWMState
     (by decide) (by decide)⟩

/-! ### Claim C7 -/

/-- C7: a map request for a handle that is already in the registry is
idempotent - the entire state (registry, counter, insertion-order and
stacking-order properties included) is unchanged, whatever the re-queried
attributes are. -/
theorem map_request_idempotent :
    ∀ (st : WM) (w : Nat) (f n : Bool) (gw gh : Int) (c : Client),
      get_client st.head w = some c → map_request st w f n gw gh = st := by
  intro st w f n gw gh c hc
  unfold map_request
  rw [hc]

/-- A one-client registry tracking window 5. -/
def stC7 : WM :=
  { head :=
      [{ w := 5, fixed := false, normal := true, width_request := 10, height_request := 10,
         x := -1, y := -1, width := 800, height := 600 }]
    , clients_n := 1, sw := 800, sh := 600, rootw := 0, focus_w := some 5
    , active := some 5, clientList := [5], clientListStacking := [5], running := true }

/-- C7 witness: remapping the already-tracked window 5 changes nothing. -/
theorem map_request_idempotent_witness :
    (get_client stC7.head 5).isSome = true
    ∧ map_request stC7 5 true true 3 4 = stC7 :=
  ⟨by decide,
   map_request_idempotent stC7 5 true true 3 4
     { w := 5, fixed := false, normal := true, width_request := 10, height_request := 10,
       x := -1, y := -1, width := 800, height := 600 } (by decide)⟩

/-! ### Claim C3 -/

/-- C3: the computed rectangle is decided per axis independently: a tiled
(non-floating) client gets position -BORDER_WIDTH and the full screen
dimension on both axes; a floating client gets, on each axis independently,
the centered position (dimension - request - 2*BORDER_WIDTH)/2 with the
requested size whenever request + 2*BORDER_WIDTH is strictly smaller than
the screen dimension, and the tiled default on that axis otherwise;
concretely, a floating client requesting 400x300 on a 1920x1080 screen with
border width 1 is placed at x=759, y=389 with size 400x300. -/
theorem update_geometry_spec :
    (∀ (c : Client) (sw sh : Int), is_floating c = false →
      update_geometry c sw sh
        = { c with x := -BORDER_WIDTH, y := -BORDER_WIDTH, width := sw, height := sh })
    ∧ (∀ (c : Client) (sw sh : Int), is_floating c = true →
      (((update_geometry c sw sh).x, (update_geometry c sw sh).width)
          = if c.width_request + 2 * BORDER_WIDTH < sw
            then ((sw - c.width_request - 2 * BORDER_WIDTH).tdiv 2, c.width_request)
            else (-BORDER_WIDTH, sw))
      ∧ (((update_geometry c sw sh).y, (update_geometry c sw sh).height)
          = if c.height_request + 2 * BORDER_WIDTH < sh
            then ((sh - c.height_request - 2 * BORDER_WIDTH).tdiv 2, c.height_request)
            else (-BORDER_WIDTH, sh)))
    ∧ (update_geometry
        { w := 1, fixed := true, normal := true, width_request := 400, height_request := 300,
          x := 0, y := 0, width := 0, height := 0 } 1920 1080
        = { w := 1, fixed := true, normal := true, width_request := 400, height_request := 300,
            x := 759, y := 389, width := 400, height := 300 }) := by
  refine ⟨?_, ?_, by decide⟩
  · intro c sw sh hf
    unfold update_geometry
    dsimp only
    rw [if_neg (by rw [is_floating_geom, hf]; exact Bool.false_ne_true)]
  · intro c sw sh hf
    unfold update_geometry
    dsimp only
    rw [if_pos (by rw [is_floating_geom, hf])]
    by_cases hw : c.width_request + BORDER_WIDTH * 2 < sw
    · have hw2 : c.width_request + 2 * BORDER_WIDTH < sw := by
        rw [mul_comm]; exact hw
      rw [if_pos hw, if_pos hw2]
      by_cases hh : c.height_request + BORDER_WIDTH * 2 < sh
      · have hh2 : c.height_request + 2 * BORDER_WIDTH < sh := by
          rw [mul_comm]; exact hh
        rw [if_pos hh, if_pos hh2]
        refine ⟨?_, ?_⟩
        · show ((sw - (c.width_request + BORDER_WIDTH * 2)).tdiv 2, c.width_request) = _
          rw [show sw - (c.width_request + BORDER_WIDTH * 2)
                = sw - c.width_request - 2 * BORDER_WIDTH by ring]
        · show ((sh - (c.height_request + BORDER_WIDTH * 2)).tdiv 2, c.height_request) = _
          rw [show sh - (c.height_request + BORDER_WIDTH * 2)
                = sh - c.height_request - 2 * BORDER_WIDTH by ring]
      · have hh2 : ¬c.height_request + 2 * BORDER_WIDTH < sh := by
          rw [mul_comm]; exact hh
        rw [if_neg hh, if_neg hh2]
        refine ⟨?_, rfl⟩
        show ((sw - (c.width_request + BORDER_WIDTH * 2)).tdiv 2, c.width_request) = _
        rw [show sw - (c.width_request + BORDER_WIDTH * 2)
              = sw - c.width_request - 2 * BORDER_WIDTH by ring]
    · have hw2 : ¬c.width_request + 2 * BORDER_WIDTH < sw := by
        rw [mul_comm]; exact hw
      rw [if_neg hw, if_neg hw2]
      by_cases hh : c.height_request + BORDER_WIDTH * 2 < sh
      · have hh2 : c.height_request + 2 * BORDER_WIDTH < sh := by
          rw [mul_comm]; exact hh
        rw [if_pos hh, if_pos hh2]
        refine ⟨rfl, ?_⟩
        show ((sh - (c.height_request + BORDER_WIDTH * 2)).tdiv 2, c.height_request) = _
        rw [show sh - (c.height_request + BORDER_WIDTH * 2)
              = sh - c.height_request - 2 * BORDER_WIDTH by ring]
      · have hh2 : ¬c.height_request + 2 * BORDER_WIDTH < sh := by
          rw [mul_comm]; exact hh
        rw [if_neg hh, if_neg hh2]
        exact ⟨rfl, rfl⟩

/-- A floating (fixed-size) client requesting 400x300. -/
def clC3f : Client :=
  { w := 1, fixed := true, normal := true, width_request := 400, height_request := 300,
    x := 0, y := 0, width := 0, height := 0 }

/-- A tiled (normal, non-fixed) client. -/
def clC3t : Client :=
  { w := 2, fixed := false, normal := true, width_request := 50, height_request := 60,
    x := 0, y := 0, width := 0, height := 0 }

/-- C3 witness: the formulas evaluated on a concrete floating client
(requesting 400x300 on 1920x1080) and a concrete tiled client. -/
theorem update_geometry_spec_witness :
    is_floating clC3f = true
    ∧ ((update_geometry clC3f 1920 1080).x, (update_geometry clC3f 1920 1080).width)
        = (759, 400)
    ∧ is_floating clC3t = false
    ∧ update_geometry clC3t 800 600
        = { clC3t with x := -BORDER_WIDTH, y := -BORDER_WIDTH, width := 800, height := 600 } := by
  refine ⟨rfl, ?_, rfl, update_geometry_spec.1 clC3t 800 600 rfl⟩
  rw [(update_geometry_spec.2.1 clC3f 1920 1080 rfl).1]
  decide

/-! ### Claim C8 -/

/-- C8: a configure request aimed at a managed tiled (non-floating) window
leaves the window's computed geometry fields (x, y, width, height)
unchanged - whatever width/height it asks for - and elicits a synthetic
ConfigureNotify that echoes the current authoritative geometry together
with the fixed border width. -/
theorem configure_request_tiled (st : WM) (w : Nat) (c : Client) (mw mh : Bool)
    (ew eh : Int) (hc : get_client st.head w = some c)
    (ht : is_floating c = false) :
    ((get_client (configure_request st w mw mh ew eh).1.head w).map
        (fun d => (d.x, d.y, d.width, d.height)) = some (c.x, c.y, c.width, c.height))
    ∧ (configure_request st w mw mh ew eh).2
        = some { x := c.x, y := c.y, width := c.width, height := c.height
                 , border_width := BORDER_WIDTH } := by
  have hcw := get_client_eq_w hc
  unfold configure_request
  rw [hc]
  dsimp only
  rw [if_neg (by unfold is_floating at ht ⊢; simp [ht])]
  dsimp only
  refine ⟨?_, rfl⟩
  have hrep : get_client (replace_client st.head w
      { c with
          width_request := if mw = true then ew else c.width_request,
          height_request := if mh = true then eh else c.height_request }) w
      = some { c with
          width_request := if mw = true then ew else c.width_request,
          height_request := if mh = true then eh else c.height_request } :=
    get_client_replace hc hcw
  rw [hrep]
  rfl

/-- A managed tiled client filling a 1024x768 screen. -/
def stC8 : WM :=
  { head :=
      [{ w := 2, fixed := false, normal := true, width_request := 500, height_request := 500,
         x := -1, y := -1, width := 1024, height := 768 }]
    , clients_n := 1, sw := 1024, sh := 768, rootw := 0, focus_w := some 2
    , active := some 2, clientList := [2], clientListStacking := [2], running := true }

/-- C8 witness: a 300x200 configure request against the concrete tiled
client leaves its geometry at (-1, -1, 1024, 768) and echoes exactly that
rectangle back. -/
theorem configure_request_tiled_witness :
    (get_client stC8.head 2).map is_floating = some false
    ∧ ((get_client (configure_request stC8 2 true true 300 200).1.head 2).map
        (fun d => (d.x, d.y, d.width, d.height)) = some (-1, -1, 1024, 768))
    ∧ (configure_request stC8 2 true true 300 200).2
        = some { x := -1, y := -1, width := 1024, height := 768, border_width := 1 } := by
  have h := configure_request_tiled stC8 2
    { w := 2, fixed := false, normal := true, width_request := 500, height_request := 500,
      x := -1, y := -1, width := 1024, height := 768 } true true 300 200
    (by decide) (by decide)
  refine ⟨by decide, ?_, ?_⟩
  · rw [h.1]
  · rw [h.2]
    decide

/-! ### Claim C9 -/

/-- C9 counterexample: the six-byte property value "quit\0j" (the quit
token, an embedded NUL byte, then junk) is none of the three ASCII tokens,
yet the handler's C-string decode (strncpy) truncates it at the NUL, reads
"quit", and stops the dispatcher - not the silent no-op the claim asserts
for every other property value. -/
theorem remote_command_cex :
    (['q', 'u', 'i', 't', Char.ofNat 0, 'j'] ≠ "last".data)
    ∧ (['q', 'u', 'i', 't', Char.ofNat 0, 'j'] ≠ "close".data)
    ∧ (['q', 'u', 'i', 't', Char.ofNat 0, 'j'] ≠ "quit".data)
    ∧ (property_cmd (init_state 0 1280 1024)
        ['q', 'u', 'i', 't', Char.ofNat 0, 'j']).1.running = false
    ∧ (property_cmd (init_state 0 1280 1024) ['q', 'u', 'i', 't', Char.ofNat 0, 'j'])
        ≠ (init_state 0 1280 1024, []) :=
  ⟨by decide, by decide, by decide, by decide, by decide⟩

/-- C9 (amended): the remote channel decodes the property value as a C
string (its bytes up to the first NUL, truncated to at most 7) and compares
the decoded command with the three ASCII tokens: each exact token executes
its command, every NUL-free value other than the three exact tokens is a
silent no-op, and a value whose C-string truncation equals a token (such as
"quit" followed by a NUL and junk) also executes it; sending close while
zero windows are tracked performs no operation at all - no state change and
no outgoing request - and does not fail. -/
theorem remote_command_spec :
    (∀ st : WM, property_cmd st "last".data = (last_cmd st, []))
    ∧ (∀ st : WM, property_cmd st "close".data = close_cmd st)
    ∧ (∀ st : WM, property_cmd st "quit".data = (quit_cmd st, []))
    ∧ (∀ (st : WM) (s : List Char), Char.ofNat 0 ∉ s →
        s ≠ "last".data → s ≠ "close".data → s ≠ "quit".data →
        property_cmd st s = (st, []))
    ∧ (∀ st : WM, st.clients_n = 0 → close_cmd st = (st, [])) := by
  refine ⟨?_, ?_, ?_, ?_, ?_⟩
  · intro st
    unfold property_cmd
    dsimp only
    rw [if_pos (show read_cmd "last".data = "last".data from by decide)]
  · intro st
    unfold property_cmd
    dsimp only
    rw [if_neg (show ¬read_cmd "close".data = "last".data from by decide),
      if_pos (show read_cmd "close".data = "close".data from by decide)]
  · intro st
    unfold property_cmd
    dsimp only
    rw [if_neg (show ¬read_cmd "quit".data = "last".data from by decide),
      if_neg (show ¬read_cmd "quit".data = "close".data from by decide),
      if_pos (show read_cmd "quit".data = "quit".data from by decide)]
  · intro st s h0 h1 h2 h3
    have hr : read_cmd s = s.take 7 := read_cmd_no_nul h0
    have hx1 : ¬read_cmd s = "last".data := by
      rw [hr]; intro hx; exact h1 (take_eq_of_short hx (by decide))
    have hx2 : ¬read_cmd s = "close".data := by
      rw [hr]; intro hx; exact h2 (take_eq_of_short hx (by decide))
    have hx3 : ¬read_cmd s = "quit".data := by
      rw [hr]; intro hx; exact h3 (take_eq_of_short hx (by decide))
    unfold property_cmd
    dsimp only
    rw [if_neg hx1, if_neg hx2, if_neg hx3]
  · intro st h
    unfold close_cmd
    rw [if_neg (by omega)]

/-- C9 witness: a NUL-free garbage value is a silent no-op, and close with
zero windows tracked performs nothing and produces no request. -/
theorem remote_command_spec_witness :
    Char.ofNat 0 ∉ ['x', 'y']
    ∧ (['x', 'y'] ≠ "last".data) ∧ (['x', 'y'] ≠ "close".data) ∧ (['x', 'y'] ≠ "quit".data)
    ∧ property_cmd (init_state 0 320 200) ['x', 'y'] = (init_state 0 320 200, [])
    ∧ (init_state 0 320 200).clients_n = 0
    ∧ close_cmd (init_state 0 320 200) = (init_state 0 320 200, []) := by
  refine ⟨by decide, by decide, by decide, by decide, ?_, by decide, ?_⟩
  · exact remote_command_spec.2.2.2.1 (init_state 0 320 200) ['x', 'y']
      (by decide) (by decide) (by decide) (by decide)
  · exact remote_command_spec.2.2.2.2 (init_state 0 320 200) (by decide)

/-! ### Claim C4 -/

/-- C4: removal on unmap notify, by case on the position of the window: a
non-head window is unlinked via its predecessor (the handle sequence loses
exactly its occurrence of w) with the input focus and the active-window
property untouched; unmapping the head of a one-entry registry empties the
registry and clears the active-window property (no tracked window remains
to hold focus; the X server itself reverts the input focus of a destroyed
focus holder, outside the embedded state); unmapping the head of a larger
registry promotes its successor to head and hands it the input focus and
the active-window property.  Concretely, mapping W1 then W2 and unmapping
W2 leaves [W1] with W1 focused and the active-window property set to W1. -/
theorem unmap_notify_spec :
    (∀ (st : WM) (w : Nat) (a : Client) (t : List Client),
      Inv st → st.head = a :: t → a.w ≠ w → w ∈ t.map Client.w →
        (unmap_notify st w).head.map Client.w = (st.head.map Client.w).erase w
        ∧ (unmap_notify st w).focus_w = st.focus_w
        ∧ (unmap_notify st w).active = st.active)
    ∧ (∀ (st : WM) (w : Nat) (a : Client),
      Inv st → st.head = [a] → a.w = w →
        (unmap_notify st w).head = [] ∧ (unmap_notify st w).active = none)
    ∧ (∀ (st : WM) (w : Nat) (a b : Client) (t : List Client),
      Inv st → st.head = a :: b :: t → a.w = w →
        (unmap_notify st w).head = b :: t
        ∧ (unmap_notify st w).focus_w = some b.w
        ∧ (unmap_notify st w).active = some b.w)
    ∧ ((unmap_notify (map_request (map_request (init_state 0 1920 1080)
          1 false true 400 300) 2 false true 400 300) 2).head.map Client.w = [1]
      ∧ (unmap_notify (map_request (map_request (init_state 0 1920 1080)
          1 false true 400 300) 2 false true 400 300) 2).focus_w = some 1
      ∧ (unmap_notify (map_request (map_request (init_state 0 1920 1080)
          1 false true 400 300) 2 false true 400 300) 2).active = some 1) := by
  refine ⟨?_, ?_, ?_, by decide⟩
  · -- the removed window is not the head
    intro st w a t hInv hl haw hmem
    obtain ⟨c, hc⟩ := get_client_isSome_of_mem hmem
    have hg : get_client st.head w = some c := by
      rw [hl, get_client, if_neg haw]
      exact hc
    unfold unmap_notify
    rw [hg]
    dsimp only
    rw [hl]
    dsimp only
    rw [if_pos haw]
    simp only [ucls_head, ucl_head, ucls_focus_w, ucl_focus_w, ucls_active, ucl_active]
    refine ⟨?_, by trivial, by trivial⟩
    show (a :: unlink t w).map Client.w = ((a :: t).map Client.w).erase w
    simp [unlink_map_w, List.erase_cons, haw]
  · -- the head of a one-entry registry
    intro st w a hInv hl haw
    have hg : get_client st.head w = some a := by
      rw [hl]; simp [get_client, haw]
    have hn : st.clients_n = 1 := by rw [hInv.2, hl]; simp
    unfold unmap_notify
    rw [hg]
    dsimp only
    rw [hl]
    dsimp only
    rw [if_neg (not_not_intro haw), if_pos hn]
    simp only [ucls_head, ucl_head, ucls_active, ucl_active]
    exact ⟨by trivial, by trivial⟩
  · -- the head of a larger registry
    intro st w a b t hInv hl haw
    have hg : get_client st.head w = some a := by
      rw [hl]; simp [get_client, haw]
    have hn : ¬st.clients_n = 1 := by
      have h2 := hInv.2
      rw [hl] at h2
      simp only [List.length_cons] at h2
      omega
    unfold unmap_notify
    rw [hg]
    dsimp only
    rw [hl]
    dsimp only
    rw [if_neg (not_not_intro haw), if_neg hn]
    simp only [ucls_head, ucl_head, ucls_focus_w, ucl_focus_w, ucls_active, ucl_active,
      focus_head, focus_focus_w, focus_active]
    exact ⟨by trivial, by trivial, by trivial⟩

/-- The top client of the concrete two-client registry used by the C4
witness. -/
def clC4a : Client :=
  { w := 2, fixed := false, normal := true, width_request := 8, height_request := 8,
    x := -1, y := -1, width := 640, height := 480 }

/-- The bottom client of the concrete two-client registry used by the C4
witness. -/
def clC4b : Client :=
  { w := 1, fixed := false, normal := true, width_request := 8, height_request := 8,
    x := -1, y := -1, width := 640, height := 480 }

/-- A two-client registry: head clC4a (window 2), then clC4b (window 1). -/
def stC4 : WM :=
  { head := [clC4a, clC4b], clients_n := 2, sw := 640, sh := 480, rootw := 0
    , focus_w := some 2, active := some 2, clientList := [1, 2]
    , clientListStacking := [1, 2], running := true }

/-- C4 witness: unmapping the head of the concrete two-client registry
promotes the second window to head and hands it focus and the
active-window property. -/
theorem unmap_notify_spec_witness :
    Inv stC4
    ∧ (unmap_notify stC4 2).head.map Client.w = [1]
    ∧ (unmap_notify stC4 2).focus_w = some 1
    ∧ (unmap_notify stC4 2).active = some 1 := by
  have h := unmap_notify_spec.2.2.1 stC4 2 clC4a clC4b [] ⟨by decide, by decide⟩ rfl rfl
  refine ⟨⟨by decide, by decide⟩, ?_, h.2.1, h.2.2⟩
  rw [h.1]
  decide

/-! ### Claim C10 -/

/-- C10: whenever fewer than two windows are tracked (registry size 0 or 1,
the clients_n counter being consistent with the registry as the invariant
guarantees), the remote command last is a complete no-op: registry order,
focus and all published properties are unchanged. -/
theorem last_cmd_noop (st : WM) (hn : st.clients_n = (st.head.length : Int))
    (hle : st.head.length ≤ 1) : last_cmd st = st := by
  unfold last_cmd
  rw [if_neg (show ¬st.clients_n > 1 by omega)]

/-- A one-client registry tracking window 3. -/
def stC10 : WM :=
  { head :=
      [{ w := 3, fixed := false, normal := true, width_request := 4, height_request := 4,
         x := -1, y := -1, width := 100, height := 100 }]
    , clients_n := 1, sw := 100, sh := 100, rootw := 0, focus_w := some 3
    , active := some 3, clientList := [3], clientListStacking := [3], running := true }

/-- C10 witness: last on a single-window registry changes nothing. -/
theorem last_cmd_noop_witness :
    stC10.clients_n = (stC10.head.length : Int)
    ∧ stC10.head.length ≤ 1
    ∧ last_cmd stC10 = stC10 :=
  ⟨by decide, by decide, last_cmd_noop stC10 (by decide) (by decide)⟩

end Xswm
